import Mathlib

/-!
Verification of the slsweb certificate generator (src/app.py).

The development shallowly embeds the parts of `app.py` that the claims are
about:

* the appearance-stream patch of `fill_and_flatten` (lines 177-190), which is
  `re.sub(rb"/[A-Za-z0-9_-]+\s+[\d.]+\s+Tf", f"/{font} {size} Tf", stream,
  count=1)`: modelled byte-for-byte on `List Char` by `patchTf`;
* the text fitter of spec section 4.1, which has no implementation in
  `src/app.py` and is therefore modelled from the spec (`textWidth`,
  `fitSize`, `textFit`);
* the route-level behaviour: widget filling, template selection, batch
  generation and merging, the readiness check and the `/generate` route.

Streams are lists of `Char`, standing for the raw bytes of a PDF appearance
stream (all bytes involved are ASCII).
-/

namespace Slsweb

/-! ### Byte-level model of the appearance-stream patch (app.py lines 177-190) -/

/-- The regex character class `[A-Za-z0-9_-]` of the rewrite pattern. -/
def isWordC (c : Char) : Bool :=
  c.isAlpha || c.isDigit || c == '_' || c == '-'

/-- The regex class `\s` for byte patterns: ASCII whitespace. -/
def isWSC (c : Char) : Bool :=
  c == ' ' || c == '\t' || c == '\n' || c == '\x0d' || c == '\x0b' || c == '\x0c'

/-- The regex class `[\d.]` of the rewrite pattern. -/
def isNumC (c : Char) : Bool :=
  c.isDigit || c == '.'

/-- Greedy match of one nonempty run of a character class: returns the run
length and the remaining input, or `none` if the run would be empty.  Because
in the pattern `/[A-Za-z0-9_-]+\s+[\d.]+\s+Tf` adjacent character classes are
disjoint, Python's backtracking engine behaves exactly like this greedy
maximal munch. -/
def run1 (p : Char → Bool) (l : List Char) : Option (Nat × List Char) :=
  let t := l.takeWhile p
  if t.length = 0 then none else some (t.length, l.drop t.length)

/-- Does the list start with the literal `Tf`? -/
def tfHead : List Char → Bool
  | a :: b :: _ => a == 'T' && b == 'f'
  | _ => false

/-- Match of the pattern after its leading `/`: word run, whitespace run,
numeral run, whitespace run, then the literal `Tf`.  Returns the total number
of characters matched (including the leading `/` and the `Tf`). -/
def matchCore (rest : List Char) : Option Nat :=
  (run1 isWordC rest).bind fun p1 =>
    (run1 isWSC p1.2).bind fun p2 =>
      (run1 isNumC p2.2).bind fun p3 =>
        (run1 isWSC p3.2).bind fun p4 =>
          if tfHead p4.2 then some (p1.1 + p2.1 + p3.1 + p4.1 + 3) else none

/-- Length of the match of `/[A-Za-z0-9_-]+\s+[\d.]+\s+Tf` at the head of the
stream, if any. -/
def matchLen (l : List Char) : Option Nat :=
  match l with
  | [] => none
  | c :: rest => if c = '/' then matchCore rest else none

/-- `re.sub(pattern, repl, s, count=1)`: replace the leftmost match of the
pattern by `repl`, or return `s` unchanged if there is no match. -/
def subFirst (repl : List Char) : List Char → List Char
  | [] => []
  | c :: rest =>
    match matchLen (c :: rest) with
    | some n => repl ++ (c :: rest).drop n
    | none => c :: subFirst repl rest

/-- The replacement bytes `f"/{font} {size} Tf"` built by the patch. -/
def mkRepl (font szs : List Char) : List Char :=
  '/' :: (font ++ ' ' :: (szs ++ [' ', 'T', 'f']))

/-- The appearance-stream patch of `fill_and_flatten` (app.py lines 180-185):
replace the first font-select instruction of the stream with
`/{intended_font} {font_size} Tf`. -/
def patchTf (font szs : List Char) (s : List Char) : List Char :=
  subFirst (mkRepl font szs) s

/-- Does the stream contain the rewrite target anywhere? -/
def hasTarget : List Char → Bool
  | [] => false
  | c :: rest => (matchLen (c :: rest)).isSome || hasTarget rest

/-- The per-annotation availability check of `fill_and_flatten` (app.py lines
165-167): if the widget's intended font is not in the loaded font table the
stream is left alone (`continue  # font not available, leave Helv`), otherwise
the `Tf` patch is applied. -/
def patchAnnot (loadedFonts : List String) (intendedFont : String)
    (szs stream : List Char) : List Char :=
  if loadedFonts.contains intendedFont then patchTf intendedFont.toList szs stream
  else stream

/-! ### Text Fitter (spec section 4.1)

`src/app.py` contains no text fitter: the patch at lines 177-190 reuses the
widget's declared size unchanged.  The fitter below is therefore modelled from
the spec. -/

/-- Modelled from the spec: per-character glyph width lookup.  "exact width =
Σ glyph-width[code − first-char] × size / 1000 per character (characters
outside the table's range contribute zero width)". -/
def glyphWidth (firstChar : Nat) (widths : List ℚ) (code : Nat) : ℚ :=
  if code < firstChar then 0 else (widths[code - firstChar]?).getD 0

/-- Modelled from the spec: computed text width of section 4.1.  With a width
table the exact per-glyph sum scaled by size/1000; without one the heuristic
character-count × size × 0.55 (the factor used by the section 8 scenario). -/
def textWidth (wt : Option (Nat × List ℚ)) (text : List Nat) (size : Nat) : ℚ :=
  match wt with
  | some (firstChar, widths) => ((text.map (glyphWidth firstChar widths)).sum) * size / 1000
  | none => (text.length : ℚ) * size * (11 / 20)

/-- Modelled from the spec: the fixed margin subtracted from the rectangle
width (section 8 scenario: rectangle width 200 gives bound 196, so margin 4). -/
def fixedMargin : ℚ := 4

/-- Modelled from the spec: "Decrease size in whole-unit steps from nominal
down to the floor, stop at the first size that fits.  If none fit, return the
floor size". -/
def fitSize (measure : Nat → ℚ) (maxW : ℚ) (floorSize : Nat) : Nat → Nat
  | 0 => floorSize
  | size + 1 =>
    if size + 1 ≤ floorSize then floorSize
    else if measure (size + 1) ≤ maxW then size + 1
    else fitSize measure maxW floorSize size

/-- Modelled from the spec: the Text Fitter.  Input text, nominal size,
optional width table, rectangle width and minimum size; output the chosen size
and a centering x-offset. -/
def textFit (wt : Option (Nat × List ℚ)) (text : List Nat) (rectW : ℚ)
    (nominal floorSize : Nat) : Nat × ℚ :=
  let s := fitSize (textWidth wt text) (rectW - fixedMargin) floorSize nominal
  (s, max 0 ((rectW - textWidth wt text s) / 2))

/-! ### Route-level model (app.py lines 116-246 and 860-950) -/

/-- The three single-page templates of the app. -/
inductive Template where
  | staff
  | participant
  | tent
deriving DecidableEq

/-- Template choice of `generate_certificates` (app.py line 223):
`STAFF_PDF if entry["role"].lower() == "staff" else PARTICIPANT_PDF`. -/
def selectTemplate (role : String) : Template :=
  if role.toLower = "staff" then Template.staff else Template.participant

/-- One input record, as produced by the parsers. -/
structure Entry where
  name : String
  lodge : String
  role : String
deriving DecidableEq

/-- One generated certificate page. -/
structure CertPage where
  template : Template
  name : String
  sectionLabel : String
deriving DecidableEq

/-- The page built for one record by `generate_certificates` (lines 222-228):
select the template from the role and fill Name and Section. -/
def makeCertPage (sectionLabel : String) (e : Entry) : CertPage :=
  { template := selectTemplate e.role, name := e.name, sectionLabel := sectionLabel }

/-- One generated name-tent page. -/
structure TentPage where
  name : String
  lodge : String
deriving DecidableEq

/-- The page built for one record by `generate_name_tents` (lines 236-244). -/
def makeTentPage (e : Entry) : TentPage :=
  { name := "\n" ++ e.name,
    lodge := if e.role.toLower = "staff" then "STAFF - " ++ e.lodge else e.lodge }

/-- `build_merged_pdf` (lines 209-216): insert each single page into a fresh
document, in list order. -/
def buildMergedPdf {α : Type} (pages : List α) : List α :=
  pages.foldl (fun acc p => acc ++ [p]) []

/-- `generate_certificates` (lines 219-230): one page per entry, in input
order, then merge. -/
def generateCertificates (entries : List Entry) (sectionLabel : String) : List CertPage :=
  buildMergedPdf (entries.map (makeCertPage sectionLabel))

/-- `generate_name_tents` (lines 233-246). -/
def generateNameTents (entries : List Entry) : List TentPage :=
  buildMergedPdf (entries.map makeTentPage)

/-- The widget-filling loop of `fill_and_flatten` (lines 143-146): a widget
receives a value exactly when its field name is a key of `field_values`.
Returns the field names that are written. -/
def writtenFields (widgets : List String) (fieldValues : List (String × String)) : List String :=
  widgets.filter (fun f => (fieldValues.lookup f).isSome)

/-- The filesystem/startup facts the routes consult. -/
structure Env where
  staffExists : Bool
  participantExists : Bool
  tentExists : Bool
  fontsLoaded : List String

/-- The template/existence table walked by `healthcheck` and `generate`. -/
def templateTable (env : Env) : List (String × Bool) :=
  [("Staff.pdf", env.staffExists), ("Participant.pdf", env.participantExists),
   ("SLS_Name_Tent.pdf", env.tentExists)]

/-- The four font identifiers the startup loader and `healthcheck` expect. -/
def expectedFonts : List String :=
  ["MuseoSlab-700", "MuseoSlab-500Italic", "MuseoSans-700", "MuseoSans-500Italic"]

/-- The per-font failure text of the readiness report. -/
def fontMissingMsg : String := "MISSING - add to fonts/ folder"

/-- The JSON readiness report of `/healthcheck` plus its HTTP status. -/
structure HealthReport where
  templates : List (String × String)
  fonts : List (String × String)
  ready : Bool
  httpStatus : Nat

/-- `healthcheck` (app.py lines 860-877): template existence decides `ready`
and the status code; fonts are only reported. -/
def healthcheck (env : Env) : HealthReport :=
  let tbl := templateTable env
  { templates := tbl.map (fun nb => (nb.1, if nb.2 then "OK" else "MISSING")),
    fonts := expectedFonts.map (fun n =>
      (n, if env.fontsLoaded.contains n then "loaded" else fontMissingMsg)),
    ready := tbl.all (fun nb => nb.2),
    httpStatus := if tbl.all (fun nb => nb.2) then 200 else 500 }

/-- The template list-comprehension of `generate` (lines 887-892). -/
def missingTemplates (env : Env) : List String :=
  ((templateTable env).filter (fun nb => !nb.2)).map Prod.fst

/-- Python's `str.isspace()` character set — exactly the characters that
`str.strip()` with no argument removes: ASCII 9-13, 28-32, and the Unicode
space and line/paragraph separators. -/
def pySpace (c : Char) : Bool :=
  [9, 10, 11, 12, 13, 28, 29, 30, 31, 32, 133, 160, 5760, 8192, 8193, 8194,
   8195, 8196, 8197, 8198, 8199, 8200, 8201, 8202, 8232, 8233, 8239, 8287,
   12288].contains c.toNat

/-- The blank-input test `not raw_text.strip()` of `generate` (line 907): the
stripped text is empty exactly when every character is Python whitespace. -/
def isBlankText (s : String) : Bool :=
  s.data.all pySpace

/-- Outcome of a `/generate` request: an error response, or generated pages. -/
inductive GenResult where
  | error (status : Nat) (msg : String)
  | ok (certs : List CertPage) (tents : List TentPage)

/-- The `/generate` route (lines 885-950).  Input parsing is out of scope per
spec section 1, so the selected parser is passed in as a function.  Pages are
generated only for output type certificates/both (certificates) and
tents/both (tents); the responses are the certificate file, the tent file, or
the zip of both.  For any other output type no page file is generated, so the
zip step's `zf.write(cert_path, ...)` raises FileNotFoundError, which the
surrounding try/except turns into a 500 "PDF generation failed" answer (the
real message carries the exception text). -/
def generateRoute (env : Env) (parse : String → List Entry)
    (rawText sectionLabel outputType : String) : GenResult :=
  if missingTemplates env = [] then
    if isBlankText rawText then GenResult.error 400 "No input data provided."
    else
      if parse rawText = [] then GenResult.error 400 "No valid names found in the input."
      else
        if outputType = "certificates" then
          GenResult.ok (generateCertificates (parse rawText) sectionLabel) []
        else if outputType = "tents" then
          GenResult.ok [] (generateNameTents (parse rawText))
        else if outputType = "both" then
          GenResult.ok (generateCertificates (parse rawText) sectionLabel)
            (generateNameTents (parse rawText))
        else
          GenResult.error 500 "PDF generation failed"
  else
    GenResult.error 500
      ("Template files missing: " ++ String.intercalate ", " (missingTemplates env))

/-! ### Helper lemmas about character runs -/

theorem takeWhile_append_all (p : Char → Bool) {a : List Char} (b : List Char)
    (h : ∀ c ∈ a, p c = true) : (a ++ b).takeWhile p = a ++ b.takeWhile p := by
  induction a with
  | nil => simp
  | cons x xs ih =>
    have hx : p x = true := h x (List.mem_cons_self x xs)
    simp only [List.cons_append, List.takeWhile_cons, hx, if_true]
    rw [ih (fun c hc => h c (List.mem_cons_of_mem x hc))]

theorem takeWhile_stop (p : Char → Bool) {b : Char} (hb : p b = false) (x : List Char) :
    (b :: x).takeWhile p = [] := by
  simp [List.takeWhile_cons, hb]

theorem takeWhile_slash {p : Char → Bool} (hp : p '/' = false) (a x : List Char) :
    (a ++ '/' :: x).takeWhile p = a.takeWhile p := by
  induction a with
  | nil => simp [List.takeWhile_cons, hp]
  | cons y ys ih =>
    cases hy : p y with
    | true => simp [List.takeWhile_cons, hy, ih]
    | false => simp [List.takeWhile_cons, hy]

theorem length_takeWhile_le (p : Char → Bool) (l : List Char) :
    (l.takeWhile p).length ≤ l.length := by
  induction l with
  | nil => simp
  | cons x xs ih =>
    cases hx : p x with
    | true => simp [List.takeWhile_cons, hx]; omega
    | false => simp [List.takeWhile_cons, hx]

theorem run1_slash (p : Char → Bool) (hp : p '/' = false) (a x : List Char) :
    run1 p (a ++ '/' :: x) = (run1 p a).map (fun pr => (pr.1, pr.2 ++ '/' :: x)) := by
  unfold run1
  rw [takeWhile_slash hp]
  by_cases h : (a.takeWhile p).length = 0
  · simp [h]
  · have hle : (a.takeWhile p).length ≤ a.length := length_takeWhile_le p a
    simp only [h, if_false]
    rw [List.drop_append_of_le_length hle]
    simp

theorem run1_exact (p : Char → Bool) (a : List Char) (b : Char) (x : List Char)
    (h1 : a ≠ []) (h2 : ∀ c ∈ a, p c = true) (h3 : p b = false) :
    run1 p (a ++ b :: x) = some (a.length, b :: x) := by
  unfold run1
  rw [takeWhile_append_all p _ h2, takeWhile_stop p h3, List.append_nil]
  have hlen : a.length ≠ 0 := by
    cases a with
    | nil => exact absurd rfl h1
    | cons => simp
  simp only [hlen, if_false]
  rw [List.drop_left]

theorem run1_some (p : Char → Bool) {l : List Char} {pr : Nat × List Char}
    (h : run1 p l = some pr) : pr.1 + pr.2.length = l.length ∧ 0 < pr.1 := by
  unfold run1 at h
  by_cases h0 : (l.takeWhile p).length = 0
  · simp [h0] at h
  · have hle : (l.takeWhile p).length ≤ l.length := length_takeWhile_le p l
    simp only [h0, if_false, Option.some.injEq] at h
    subst h
    constructor
    · simp only [List.length_drop]
      omega
    · omega

theorem tfHead_slash (a v w : List Char) : tfHead (a ++ '/' :: v) = tfHead (a ++ '/' :: w) := by
  cases a with
  | nil =>
    cases v with
    | nil =>
      cases w with
      | nil => rfl
      | cons bw tw => simp [tfHead]
    | cons bv tv =>
      cases w with
      | nil => simp [tfHead]
      | cons bw tw => simp [tfHead]
  | cons y ys =>
    cases ys with
    | nil => simp [tfHead]
    | cons z zs => rfl

theorem tfHead_length {r : List Char} (h : tfHead r = true) : 2 ≤ r.length := by
  cases r with
  | nil => simp [tfHead] at h
  | cons a t =>
    cases t with
    | nil => simp [tfHead] at h
    | cons b u => simp

/-! ### Lemmas about the pattern match -/

/-- The scan of `matchCore` never passes a `/`: its outcome is the same for
any continuation after the first `/` of the input. -/
theorem matchCore_slash (a v w : List Char) :
    matchCore (a ++ '/' :: v) = matchCore (a ++ '/' :: w) := by
  unfold matchCore
  rw [run1_slash isWordC (by decide) a v, run1_slash isWordC (by decide) a w]
  cases h1 : run1 isWordC a with
  | none => rfl
  | some p1 =>
    simp only [Option.map_some', Option.some_bind]
    rw [run1_slash isWSC (by decide) p1.2 v, run1_slash isWSC (by decide) p1.2 w]
    cases h2 : run1 isWSC p1.2 with
    | none => rfl
    | some p2 =>
      simp only [Option.map_some', Option.some_bind]
      rw [run1_slash isNumC (by decide) p2.2 v, run1_slash isNumC (by decide) p2.2 w]
      cases h3 : run1 isNumC p2.2 with
      | none => rfl
      | some p3 =>
        simp only [Option.map_some', Option.some_bind]
        rw [run1_slash isWSC (by decide) p3.2 v, run1_slash isWSC (by decide) p3.2 w]
        cases h4 : run1 isWSC p3.2 with
        | none => rfl
        | some p4 =>
          simp only [Option.map_some', Option.some_bind]
          rw [tfHead_slash p4.2 v w]

theorem matchLen_cons (c : Char) (rest : List Char) :
    matchLen (c :: rest) = if c = '/' then matchCore rest else none := rfl

theorem matchLen_slash (c : Char) (a v w : List Char) :
    matchLen (c :: (a ++ '/' :: v)) = matchLen (c :: (a ++ '/' :: w)) := by
  rw [matchLen_cons, matchLen_cons]
  by_cases hc : c = '/'
  · simp only [hc, if_pos rfl]
    exact matchCore_slash a v w
  · simp [hc]

theorem matchLen_some_head {d : Char} {r : List Char} {m : Nat}
    (h : matchLen (d :: r) = some m) : d = '/' := by
  rw [matchLen_cons] at h
  by_cases hd : d = '/'
  · exact hd
  · simp [hd] at h

theorem matchCore_le {rest : List Char} {n : Nat} (h : matchCore rest = some n) :
    n ≤ rest.length + 1 := by
  unfold matchCore at h
  cases h1 : run1 isWordC rest with
  | none => rw [h1] at h; simp at h
  | some p1 =>
    rw [h1] at h
    simp only [Option.some_bind] at h
    cases h2 : run1 isWSC p1.2 with
    | none => rw [h2] at h; simp at h
    | some p2 =>
      rw [h2] at h
      simp only [Option.some_bind] at h
      cases h3 : run1 isNumC p2.2 with
      | none => rw [h3] at h; simp at h
      | some p3 =>
        rw [h3] at h
        simp only [Option.some_bind] at h
        cases h4 : run1 isWSC p3.2 with
        | none => rw [h4] at h; simp at h
        | some p4 =>
          rw [h4] at h
          simp only [Option.some_bind] at h
          by_cases htf : tfHead p4.2 = true
          · rw [if_pos htf] at h
            have e1 := run1_some isWordC h1
            have e2 := run1_some isWSC h2
            have e3 := run1_some isNumC h3
            have e4 := run1_some isWSC h4
            have etf := tfHead_length htf
            simp only [Option.some.injEq] at h
            omega
          · rw [if_neg htf] at h
            simp at h

theorem matchLen_le {l : List Char} {n : Nat} (h : matchLen l = some n) :
    n ≤ l.length := by
  cases l with
  | nil => simp [matchLen] at h
  | cons c rest =>
    have hc := matchLen_some_head h
    rw [matchLen_cons, if_pos hc] at h
    have := matchCore_le h
    simp only [List.length_cons]
    omega

theorem isNumC_not_ws {c : Char} (h : isNumC c = true) : isWSC c = false := by
  have hcases : c = ' ' ∨ c = '\t' ∨ c = '\n' ∨ c = '\x0d' ∨ c = '\x0b' ∨ c = '\x0c'
      ∨ isWSC c = false := by
    unfold isWSC
    rcases hb : (c == ' ' || c == '\t' || c == '\n' || c == '\x0d' || c == '\x0b'
        || c == '\x0c') with _ | _
    · exact Or.inr (Or.inr (Or.inr (Or.inr (Or.inr (Or.inr rfl)))))
    · simp only [Bool.or_eq_true, beq_iff_eq] at hb
      tauto
  rcases hcases with rfl | rfl | rfl | rfl | rfl | rfl | hf
  · exact absurd h (by decide)
  · exact absurd h (by decide)
  · exact absurd h (by decide)
  · exact absurd h (by decide)
  · exact absurd h (by decide)
  · exact absurd h (by decide)
  · exact hf

/-- The replacement string `f"/{font} {size} Tf"` itself matches the rewrite
pattern in full, for the font names and size literals the app produces. -/
theorem matchLen_repl (font szs t : List Char) (hf1 : font ≠ [])
    (hf2 : ∀ c ∈ font, isWordC c = true) (hs1 : szs ≠ [])
    (hs2 : ∀ c ∈ szs, isNumC c = true) :
    matchLen (mkRepl font szs ++ t) = some (mkRepl font szs).length := by
  obtain ⟨sh, st, rfl⟩ : ∃ sh st, szs = sh :: st := by
    cases szs with
    | nil => exact absurd rfl hs1
    | cons sh st => exact ⟨sh, st, rfl⟩
  have hshape : mkRepl font (sh :: st) ++ t
      = '/' :: (font ++ ' ' :: ((sh :: st) ++ ' ' :: 'T' :: 'f' :: t)) := by
    simp [mkRepl]
  rw [hshape, matchLen_cons, if_pos rfl]
  unfold matchCore
  rw [run1_exact isWordC font ' ' _ hf1 hf2 (by decide)]
  simp only [Option.some_bind]
  have hsh : isNumC sh = true := hs2 sh (List.mem_cons_self sh st)
  have hshw : isWSC sh = false := isNumC_not_ws hsh
  have h2shape : (' ' :: ((sh :: st) ++ ' ' :: 'T' :: 'f' :: t))
      = [' '] ++ sh :: (st ++ ' ' :: 'T' :: 'f' :: t) := by simp
  rw [h2shape, run1_exact isWSC [' '] sh _ (by simp) (by decide) hshw]
  simp only [Option.some_bind]
  have h3shape : (sh :: (st ++ ' ' :: 'T' :: 'f' :: t))
      = (sh :: st) ++ ' ' :: ('T' :: 'f' :: t) := by simp
  rw [h3shape, run1_exact isNumC (sh :: st) ' ' _ (by simp) hs2 (by decide)]
  simp only [Option.some_bind]
  have h4shape : (' ' :: ('T' :: 'f' :: t)) = [' '] ++ 'T' :: ('f' :: t) := by simp
  rw [h4shape, run1_exact isWSC [' '] 'T' _ (by simp) (by decide) (by decide)]
  simp only [Option.some_bind]
  have htf : tfHead ('T' :: 'f' :: t) = true := rfl
  rw [if_pos htf]
  congr 1
  simp [mkRepl]
  omega

/-! ### Lemmas about the substitution -/

theorem subFirst_nil (repl : List Char) : subFirst repl [] = [] := rfl

theorem subFirst_cons_some {repl : List Char} {c : Char} {rest : List Char} {n : Nat}
    (h : matchLen (c :: rest) = some n) :
    subFirst repl (c :: rest) = repl ++ (c :: rest).drop n := by
  simp [subFirst, h]

theorem subFirst_cons_none {repl : List Char} {c : Char} {rest : List Char}
    (h : matchLen (c :: rest) = none) :
    subFirst repl (c :: rest) = c :: subFirst repl rest := by
  simp [subFirst, h]

/-- Applying the substitution to a string that starts with the (well-formed)
replacement leaves it unchanged: the replacement is its own first match. -/
theorem subFirst_repl_append (font szs t : List Char) (hf1 : font ≠ [])
    (hf2 : ∀ c ∈ font, isWordC c = true) (hs1 : szs ≠ [])
    (hs2 : ∀ c ∈ szs, isNumC c = true) :
    subFirst (mkRepl font szs) (mkRepl font szs ++ t) = mkRepl font szs ++ t := by
  have hm := matchLen_repl font szs t hf1 hf2 hs1 hs2
  have hr0 : mkRepl font szs ++ t
      = '/' :: (font ++ ' ' :: (szs ++ [' ', 'T', 'f']) ++ t) := by simp [mkRepl]
  rw [hr0] at hm ⊢
  rw [subFirst_cons_some hm, ← hr0, List.drop_left]

/-- A position with no match keeps having no match after the substitution
rewrites a later part of the stream: the leading `/` of the replacement stops
any scan that starts earlier, exactly as the `/` that began the replaced
match did. -/
theorem subFirst_no_new_match (font szs : List Char) :
    ∀ (rest u : List Char), matchLen (u ++ rest) = none →
      matchLen (u ++ subFirst (mkRepl font szs) rest) = none := by
  intro rest
  induction rest with
  | nil =>
    intro u h
    rw [subFirst_nil]
    exact h
  | cons d rest' ih =>
    intro u h
    cases hm : matchLen (d :: rest') with
    | some m =>
      have hd : d = '/' := matchLen_some_head hm
      rw [subFirst_cons_some hm]
      cases u with
      | nil =>
        rw [List.nil_append] at h
        rw [h] at hm
        exact absurd hm (by simp)
      | cons c u' =>
        subst hd
        have hgoal : (c :: u') ++ (mkRepl font szs ++ ('/' :: rest').drop m)
            = c :: (u' ++ '/' :: (font ++ ' ' :: (szs ++ [' ', 'T', 'f'])
                ++ ('/' :: rest').drop m)) := by
          simp [mkRepl]
        have hhyp : (c :: u') ++ '/' :: rest' = c :: (u' ++ '/' :: rest') := by simp
        rw [hgoal]
        rw [hhyp] at h
        rw [matchLen_slash c u' _ rest']
        exact h
    | none =>
      rw [subFirst_cons_none hm]
      have hstep : u ++ d :: subFirst (mkRepl font szs) rest'
          = (u ++ [d]) ++ subFirst (mkRepl font szs) rest' := by simp
      rw [hstep]
      refine ih (u ++ [d]) ?_
      have : (u ++ [d]) ++ rest' = u ++ d :: rest' := by simp
      rw [this]
      exact h

/-! ### Lemmas about the fitter descent -/

theorem floor_le_fitSize (measure : Nat → ℚ) (maxW : ℚ) (floorSize : Nat) :
    ∀ n, floorSize ≤ fitSize measure maxW floorSize n := by
  intro n
  induction n with
  | zero => simp [fitSize]
  | succ m ih =>
    unfold fitSize
    by_cases h1 : m + 1 ≤ floorSize
    · simp [h1]
    · rw [if_neg h1]
      by_cases h2 : measure (m + 1) ≤ maxW
      · rw [if_pos h2]; omega
      · rw [if_neg h2]; exact ih

theorem fitSize_le (measure : Nat → ℚ) (maxW : ℚ) (floorSize : Nat) :
    ∀ n, floorSize ≤ n → fitSize measure maxW floorSize n ≤ n := by
  intro n
  induction n with
  | zero => intro h; simpa [fitSize] using h
  | succ m ih =>
    intro h
    unfold fitSize
    by_cases h1 : m + 1 ≤ floorSize
    · rw [if_pos h1]; omega
    · rw [if_neg h1]
      by_cases h2 : measure (m + 1) ≤ maxW
      · rw [if_pos h2]
      · rw [if_neg h2]
        have := ih (by omega)
        omega

theorem fitSize_fits (measure : Nat → ℚ) (maxW : ℚ) (floorSize : Nat) :
    ∀ n, fitSize measure maxW floorSize n ≠ floorSize →
      measure (fitSize measure maxW floorSize n) ≤ maxW := by
  intro n
  induction n with
  | zero => intro h; exact absurd rfl h
  | succ m ih =>
    intro h
    unfold fitSize at h ⊢
    by_cases h1 : m + 1 ≤ floorSize
    · rw [if_pos h1] at h; exact absurd rfl h
    · rw [if_neg h1] at h ⊢
      by_cases h2 : measure (m + 1) ≤ maxW
      · rw [if_pos h2] at h ⊢; exact h2
      · rw [if_neg h2] at h ⊢; exact ih h

theorem fitSize_first (measure : Nat → ℚ) (maxW : ℚ) (floorSize : Nat) :
    ∀ n s, fitSize measure maxW floorSize n < s → s ≤ n → ¬ measure s ≤ maxW := by
  intro n
  induction n with
  | zero => intro s h1 h2; omega
  | succ m ih =>
    intro s h1 h2
    unfold fitSize at h1
    by_cases hb1 : m + 1 ≤ floorSize
    · rw [if_pos hb1] at h1; omega
    · rw [if_neg hb1] at h1
      by_cases hb2 : measure (m + 1) ≤ maxW
      · rw [if_pos hb2] at h1; omega
      · rw [if_neg hb2] at h1
        by_cases hs : s ≤ m
        · exact ih s h1 hs
        · have : s = m + 1 := by omega
          rw [this]
          exact hb2

/-! ### Lemmas about the route-level model -/

theorem lookup_isSome_iff (f : String) (vals : List (String × String)) :
    (vals.lookup f).isSome = true ↔ f ∈ vals.map Prod.fst := by
  induction vals with
  | nil => simp [List.lookup]
  | cons kv tl ih =>
    obtain ⟨k, v⟩ := kv
    cases hk : (f == k) with
    | true =>
      have hfk : f = k := eq_of_beq hk
      simp [List.lookup, hk, hfk]
    | false =>
      have hne : f ≠ k := ne_of_beq_false hk
      simp [List.lookup, hk, ih, hne]

theorem buildMergedPdf_eq {α : Type} (pages : List α) : buildMergedPdf pages = pages := by
  have key : ∀ (l acc : List α), l.foldl (fun a p => a ++ [p]) acc = acc ++ l := by
    intro l
    induction l with
    | nil => intro acc; simp
    | cons x xs ih =>
      intro acc
      rw [List.foldl_cons, ih]
      simp
  simpa [buildMergedPdf] using key pages []

/-! ### Claim theorems -/

/-- Claim C1: for every input (text, rectangle width, nominal size, floor
size) with floor at most nominal, the Text Fitter returns a size in the
closed interval [floor, nominal]; the computed width of the returned size
exceeds rectangle width minus the fixed margin only when the returned size
equals the floor; and every size strictly above the returned one (up to
nominal) does not fit, so the descent stopped at the first fitting size. -/
theorem c1_text_fitter (wt : Option (Nat × List ℚ)) (text : List Nat) (rectW : ℚ)
    (nominal floorSize : Nat) (h : floorSize ≤ nominal) :
    floorSize ≤ (textFit wt text rectW nominal floorSize).1
  ∧ (textFit wt text rectW nominal floorSize).1 ≤ nominal
  ∧ ((textFit wt text rectW nominal floorSize).1 ≠ floorSize →
      textWidth wt text (textFit wt text rectW nominal floorSize).1 ≤ rectW - fixedMargin)
  ∧ (∀ s, (textFit wt text rectW nominal floorSize).1 < s → s ≤ nominal →
      ¬ textWidth wt text s ≤ rectW - fixedMargin) :=
  ⟨floor_le_fitSize (textWidth wt text) (rectW - fixedMargin) floorSize nominal,
   fitSize_le (textWidth wt text) (rectW - fixedMargin) floorSize nominal h,
   fitSize_fits (textWidth wt text) (rectW - fixedMargin) floorSize nominal,
   fun s h1 h2 => fitSize_first (textWidth wt text) (rectW - fixedMargin) floorSize
     nominal s h1 h2⟩

/-- Witness for C1 at a concrete input: 20 characters, rectangle width 200,
nominal 24, floor 14.  The heuristic width 20 × s × 0.55 = 11s fits at 17
(187 ≤ 196) and not at any larger size, so the fitted size is 17: strictly
between floor and nominal, its width within the bound, and size 20 does not
fit. -/
theorem c1_text_fitter_witness :
    (14 ≤ 24)
  ∧ 14 ≤ (textFit none (List.replicate 20 65) 200 24 14).1
  ∧ (textFit none (List.replicate 20 65) 200 24 14).1 ≤ 24
  ∧ textWidth none (List.replicate 20 65) (textFit none (List.replicate 20 65) 200 24 14).1
      ≤ 200 - fixedMargin
  ∧ ¬ textWidth none (List.replicate 20 65) 20 ≤ 200 - fixedMargin := by
  have h := c1_text_fitter none (List.replicate 20 65) 200 24 14 (by decide)
  refine ⟨by decide, h.1, h.2.1, ?_, ?_⟩
  · exact h.2.2.1 (by norm_num [textFit, fitSize, textWidth, fixedMargin])
  · exact h.2.2.2 20 (by norm_num [textFit, fitSize, textWidth, fixedMargin]) (by decide)

/-- Claim C2: the appearance-stream patch is idempotent.  For the well-formed
operands the app produces (a nonempty font name over `[A-Za-z0-9_-]` and a
nonempty size literal over `[\d.]`), re-applying the `Tf` rewrite to an
already patched stream returns it byte-for-byte unchanged. -/
theorem c2_patch_idempotent (font szs : List Char) (hf1 : font ≠ [])
    (hf2 : ∀ c ∈ font, isWordC c = true) (hs1 : szs ≠ [])
    (hs2 : ∀ c ∈ szs, isNumC c = true) (s : List Char) :
    patchTf font szs (patchTf font szs s) = patchTf font szs s := by
  unfold patchTf
  induction s with
  | nil => rfl
  | cons c rest ih =>
    cases hm : matchLen (c :: rest) with
    | some n =>
      rw [subFirst_cons_some hm]
      exact subFirst_repl_append font szs _ hf1 hf2 hs1 hs2
    | none =>
      rw [subFirst_cons_none hm]
      have hnone : matchLen ([c] ++ subFirst (mkRepl font szs) rest) = none :=
        subFirst_no_new_match font szs rest [c] (by simpa using hm)
      rw [subFirst_cons_none (by simpa using hnone)]
      rw [ih]

/-- Witness for C2 at the app's own operands and a concrete stream. -/
theorem c2_patch_idempotent_witness :
    ("MuseoSlab-700".toList ≠ ([] : List Char))
  ∧ (∀ c ∈ "MuseoSlab-700".toList, isWordC c = true)
  ∧ ("11.0".toList ≠ ([] : List Char))
  ∧ (∀ c ∈ "11.0".toList, isNumC c = true)
  ∧ patchTf "MuseoSlab-700".toList "11.0".toList
      (patchTf "MuseoSlab-700".toList "11.0".toList
        "/Helv 12 Tf 10 20 Td (Hi) Tj".toList)
    = patchTf "MuseoSlab-700".toList "11.0".toList
        "/Helv 12 Tf 10 20 Td (Hi) Tj".toList :=
  ⟨by decide, by decide, by decide, by decide,
   c2_patch_idempotent "MuseoSlab-700".toList "11.0".toList (by decide) (by decide)
     (by decide) (by decide) "/Helv 12 Tf 10 20 Td (Hi) Tj".toList⟩

/-- Counterexample to claim C3 as stated: the patch does NOT leave the font
name byte-identical.  On the stream `/Helv 12 Tf 10 20 Td (Hi) Tj` with
intended font MuseoSlab-700 and size 11.0, the whole font-select instruction
is replaced — the byte after the `/` changes from `H` to `M` — while no
position operand is touched. -/
theorem c3_counterexample :
    patchTf "MuseoSlab-700".toList "11.0".toList "/Helv 12 Tf 10 20 Td (Hi) Tj".toList
      = "/MuseoSlab-700 11.0 Tf 10 20 Td (Hi) Tj".toList
  ∧ ("/Helv 12 Tf 10 20 Td (Hi) Tj".toList)[1]?
      ≠ (patchTf "MuseoSlab-700".toList "11.0".toList
          "/Helv 12 Tf 10 20 Td (Hi) Tj".toList)[1]? := by
  constructor
  · decide
  · decide

/-- Claim C3 (amended): when the patcher finds the rewrite target it replaces
exactly the first matched font-select instruction with
`/{intended font} {declared size} Tf` — rewriting the whole instruction, font
name included — and every byte before and after the matched instruction
(position, clip and graphics-state instructions among them) is unchanged;
when there is no target the stream is returned as is. -/
theorem c3_patch_frame (font szs s : List Char) :
    patchTf font szs s = s ∨
    ∃ p q t, s = p ++ q ++ t ∧ matchLen (q ++ t) = some q.length ∧
      patchTf font szs s = p ++ mkRepl font szs ++ t := by
  unfold patchTf
  induction s with
  | nil => left; rfl
  | cons c rest ih =>
    cases hm : matchLen (c :: rest) with
    | some n =>
      right
      have hle : n ≤ (c :: rest).length := matchLen_le hm
      refine ⟨[], (c :: rest).take n, (c :: rest).drop n, ?_, ?_, ?_⟩
      · simp [List.take_append_drop]
      · rw [List.take_append_drop, hm, List.length_take]
        congr 1
        omega
      · rw [subFirst_cons_some hm]
        simp
    | none =>
      rw [subFirst_cons_none hm]
      cases ih with
      | inl hid => left; rw [hid]
      | inr hex =>
        obtain ⟨p, q, t, hs, hq, hp⟩ := hex
        right
        exact ⟨c :: p, q, t, by simp [← hs], hq, by rw [hp]; simp⟩

/-- Counterexample to claim C4 as stated: a stream with no position or
show-text instruction at all (no `Td`, `TD`, `Tm`, `Tj` or `TJ` operator —
none of the bytes `j`, `J`, `d`, `D`, `m` occurs) is still modified, because
the code's rewrite target is the font-select instruction, not a
position + show-text pair. -/
theorem c4_counterexample :
    (∀ c ∈ "/Helv 11 Tf".toList,
        c ≠ 'j' ∧ c ≠ 'J' ∧ c ≠ 'd' ∧ c ≠ 'D' ∧ c ≠ 'm')
  ∧ patchTf "MuseoSans-700".toList "10.0".toList "/Helv 11 Tf".toList
      ≠ "/Helv 11 Tf".toList := by
  constructor
  · decide
  · decide

/-- Claim C4 (amended): for every rendering stream in which the rewrite
target — a font-select instruction matching `/[A-Za-z0-9_-]+\s+[\d.]+\s+Tf` —
is absent, the patch step returns the stream's bytes unmodified (and the
patcher is a total function: the code additionally swallows any exception,
leaving the stream unpatched). -/
theorem c4_patch_skips_unmatched (font szs : List Char) {s : List Char}
    (h : hasTarget s = false) : patchTf font szs s = s := by
  unfold patchTf
  induction s with
  | nil => rfl
  | cons c rest ih =>
    unfold hasTarget at h
    rw [Bool.or_eq_false_iff] at h
    obtain ⟨h1, h2⟩ := h
    have hm : matchLen (c :: rest) = none := by
      cases hmm : matchLen (c :: rest)
      · rfl
      · rw [hmm] at h1; simp at h1
    rw [subFirst_cons_none hm, ih h2]

/-- Witness for C4 (amended) on a concrete target-free stream. -/
theorem c4_patch_skips_unmatched_witness :
    hasTarget "10 20 Td (Hi) Tj".toList = false
  ∧ patchTf "MuseoSans-700".toList "10.0".toList "10 20 Td (Hi) Tj".toList
      = "10 20 Td (Hi) Tj".toList :=
  ⟨by decide,
   c4_patch_skips_unmatched "MuseoSans-700".toList "10.0".toList (by decide)⟩

/-- Claim C5: a field receives a value exactly when it is both a widget of the
template and a key of the supplied value map — the written field set is the
intersection of the two; keys that name no widget are ignored. -/
theorem c5_written_fields (widgets : List String) (vals : List (String × String))
    (f : String) :
    f ∈ writtenFields widgets vals ↔ f ∈ widgets ∧ f ∈ vals.map Prod.fst := by
  unfold writtenFields
  rw [List.mem_filter]
  constructor
  · rintro ⟨hw, hv⟩
    exact ⟨hw, (lookup_isSome_iff f vals).mp hv⟩
  · rintro ⟨hw, hv⟩
    exact ⟨hw, (lookup_isSome_iff f vals).mpr hv⟩

/-- Claim C6: for a batch of N entries the merged certificate document has
exactly N pages, and page i is the page generated from entry i. -/
theorem c6_page_order (entries : List Entry) (sectionLabel : String) :
    (generateCertificates entries sectionLabel).length = entries.length
  ∧ ∀ i : Nat, (generateCertificates entries sectionLabel)[i]?
      = (entries[i]?).map (makeCertPage sectionLabel) := by
  unfold generateCertificates
  rw [buildMergedPdf_eq]
  refine ⟨by simp, fun i => ?_⟩
  simp [List.getElem?_map]

/-- Claim C7: when any template file is missing, `/generate` answers with a
500 error naming the missing templates, before consulting the parser or
generating anything — the result is the same for every parser and carries no
pages. -/
theorem c7_missing_template (env : Env) (parse : String → List Entry)
    (rawText sectionLabel outputType : String) (h : missingTemplates env ≠ []) :
    generateRoute env parse rawText sectionLabel outputType =
      GenResult.error 500
        ("Template files missing: " ++ String.intercalate ", " (missingTemplates env)) := by
  unfold generateRoute
  rw [if_neg h]

/-- Witness for C7 with Staff.pdf absent. -/
theorem c7_missing_template_witness :
    missingTemplates ⟨false, true, true, []⟩ ≠ []
  ∧ generateRoute ⟨false, true, true, []⟩ (fun _ => []) "x" "SE-5" "both" =
      GenResult.error 500
        ("Template files missing: "
          ++ String.intercalate ", " (missingTemplates ⟨false, true, true, []⟩)) :=
  ⟨by decide, c7_missing_template ⟨false, true, true, []⟩ (fun _ => []) "x" "SE-5" "both"
    (by decide)⟩

/-- Claim C8: a font identifier absent from the loaded font table never fails
a batch: the per-annotation patch leaves the stream on its fallback font
(`continue  # font not available, leave Helv`), the readiness report marks
that font missing, and `/generate` still succeeds for each of the three
output types a generation request carries (its outcome never consults the
font table). -/
theorem c8_missing_font (loaded : List String) (fontName : String)
    (szs stream : List Char) (env : Env) (parse : String → List Entry)
    (rawText sectionLabel outputType : String)
    (hfont : loaded.contains fontName = false)
    (hexp : fontName ∈ expectedFonts)
    (htmpl : missingTemplates { env with fontsLoaded := loaded } = [])
    (hraw : ¬ isBlankText rawText = true)
    (hent : parse rawText ≠ [])
    (hot : outputType = "certificates" ∨ outputType = "tents" ∨ outputType = "both") :
    patchAnnot loaded fontName szs stream = stream
  ∧ (fontName, fontMissingMsg) ∈ (healthcheck { env with fontsLoaded := loaded }).fonts
  ∧ ∃ certs tents,
      generateRoute { env with fontsLoaded := loaded } parse rawText sectionLabel outputType
        = GenResult.ok certs tents := by
  refine ⟨?_, ?_, ?_⟩
  · unfold patchAnnot
    rw [hfont]
    simp
  · simp only [healthcheck]
    refine List.mem_map.mpr ⟨fontName, hexp, ?_⟩
    rw [hfont]
    simp
  · unfold generateRoute
    rw [if_pos htmpl, if_neg hraw, if_neg hent]
    rcases hot with rfl | rfl | rfl
    · rw [if_pos rfl]
      exact ⟨_, _, rfl⟩
    · rw [if_neg (by decide), if_pos rfl]
      exact ⟨_, _, rfl⟩
    · rw [if_neg (by decide), if_neg (by decide), if_pos rfl]
      exact ⟨_, _, rfl⟩

/-- Witness for C8: no fonts loaded, MuseoSlab-700 declared, all templates
present and one valid record. -/
theorem c8_missing_font_witness :
    ([] : List String).contains "MuseoSlab-700" = false
  ∧ "MuseoSlab-700" ∈ expectedFonts
  ∧ missingTemplates ⟨true, true, true, []⟩ = []
  ∧ ¬ (isBlankText "x" = true)
  ∧ ([⟨"Ann", "Lodge", "Participant"⟩] : List Entry) ≠ []
  ∧ (("both" : String) = "certificates" ∨ ("both" : String) = "tents"
      ∨ ("both" : String) = "both")
  ∧ (patchAnnot [] "MuseoSlab-700" "11.0".toList "/Helv 12 Tf".toList = "/Helv 12 Tf".toList
    ∧ ("MuseoSlab-700", fontMissingMsg) ∈ (healthcheck ⟨true, true, true, []⟩).fonts
    ∧ ∃ certs tents,
        generateRoute ⟨true, true, true, []⟩
          (fun _ => [⟨"Ann", "Lodge", "Participant"⟩]) "x" "SE-5" "both"
          = GenResult.ok certs tents) := by
  refine ⟨by decide, by decide, by decide, by decide, by simp, by decide, ?_⟩
  exact c8_missing_font [] "MuseoSlab-700" "11.0".toList "/Helv 12 Tf".toList
    ⟨true, true, true, []⟩
    (fun _ => [⟨"Ann", "Lodge", "Participant"⟩]) "x" "SE-5" "both"
    (by decide) (by decide) (by decide) (by decide) (by simp) (by decide)

/-- Claim C9: the readiness flag equals the conjunction of the three template
existence checks, the HTTP status is 200 exactly on ready (500 otherwise),
and neither is affected by which fonts are loaded. -/
theorem c9_healthcheck_ready (env : Env) :
    ((healthcheck env).ready = (env.staffExists && env.participantExists && env.tentExists))
  ∧ ((healthcheck env).httpStatus = if (healthcheck env).ready then 200 else 500)
  ∧ (∀ fonts2 : List String,
      (healthcheck { env with fontsLoaded := fonts2 }).ready = (healthcheck env).ready
    ∧ (healthcheck { env with fontsLoaded := fonts2 }).httpStatus
        = (healthcheck env).httpStatus) := by
  obtain ⟨s, p, t, fl⟩ := env
  refine ⟨?_, ?_, fun fonts2 => ⟨?_, ?_⟩⟩ <;>
    cases s <;> cases p <;> cases t <;> simp [healthcheck, templateTable]

/-- Claim C10: the Staff template is selected exactly when the record's role,
lowercased, is the string "staff"; every other role (the empty string
included) selects the Participant template, there being no third outcome. -/
theorem c10_template_selection (role : String) :
    (selectTemplate role = Template.staff ↔ role.toLower = "staff")
  ∧ (selectTemplate role = Template.staff ∨ selectTemplate role = Template.participant) := by
  unfold selectTemplate
  by_cases h : role.toLower = "staff"
  · simp [h]
  · simp [h]

end Slsweb
